import Mathlib

/-!
Verification of the Sovereign Vault cryptographic core.

The development embeds the pipeline of the repository: the Argon2id key
derivation wrapper of app.js, the chunked authenticated encryption of
crypto-core.js, and the container header handling and earlier variants of
the unnamed source parts. External primitives that live outside the
repository (WebCrypto PBKDF2, the Argon2id WASM module, the AEAD cipher)
are modelled from the spec as deterministic executable functions.

Conventions of the embedding:
- byte sequences are lists of naturals, reduced mod 256 where written;
- the CSPRNG is an explicit stream: a function from a draw counter and a
  byte index to a byte, with the counter threaded through each operation;
- a JavaScript throw becomes an Except error value; buffers that a
  function may mutate are reported in an outcome record holding their
  contents at exit.
-/

deriving instance DecidableEq for Except

namespace SovereignVault

/-- Byte sequences: JavaScript Uint8Array contents as lists of naturals. -/
abbrev Bytes := List Nat

/-- The error taxonomy of the spec: validation, format, derivation and
authentication failures. The source throws plain Error values whose
messages correspond to these classes. -/
inductive VaultError where
  | validationError
  | formatError
  | derivationError
  | authenticationError
deriving DecidableEq, Repr

/-- A JavaScript value passed as a password: either a string or a value of
some other type (the code checks typeof password at runtime). -/
inductive JsValue where
  | str : String → JsValue
  | nonString : JsValue
deriving DecidableEq, Repr

/-- UTF-8 encoding of a single code point. -/
def charUtf8 (n : Nat) : List Nat :=
  if n < 128 then [n]
  else if n < 2048 then [192 + n / 64, 128 + n % 64]
  else if n < 65536 then [224 + n / 4096, 128 + (n / 64) % 64, 128 + n % 64]
  else [240 + n / 262144, 128 + (n / 4096) % 64, 128 + (n / 64) % 64, 128 + n % 64]

/-- TextEncoder().encode: UTF-8 bytes of a string. -/
def strToBytes (s : String) : Bytes :=
  (s.data.map (fun c => charUtf8 c.toNat)).flatten

/-- A positional mixing fold over bytes, used by the spec-modelled
primitives; kept small so concrete evaluation stays cheap. -/
def byteDot (xs : Bytes) : Nat :=
  xs.foldl (fun a b => (a * 131 + b % 256 + 1) % 7919) 7

/-- The CSPRNG modelled as an explicit stream: rng d i is byte i of the
d-th draw made by crypto.getRandomValues. -/
abbrev Rng := Nat → Nat → Nat

/-- randomBytes(n) at draw counter d: n bytes of the d-th RNG draw. -/
def randomBytesDraw (rng : Rng) (draw n : Nat) : Bytes :=
  (List.range n).map (fun i => rng draw i % 256)

theorem randomBytesDraw_length (rng : Rng) (draw n : Nat) :
    (randomBytesDraw rng draw n).length = n := by
  simp [randomBytesDraw]

/-- Modelled from the spec: the WebCrypto PBKDF2-HMAC-SHA-512 primitive
(pbkdf2PreHash in argon2.wasm.js calls crypto.subtle.deriveBits, which is
not part of this repository). Per the spec it is a deterministic, salted,
iterated-hash mapping of password bytes to a 256-bit (32-byte)
intermediate. -/
def pbkdf2PreHash (pwd salt : Bytes) (iterations : Nat) : Bytes :=
  (List.range 32).map
    (fun i => (byteDot pwd * 3 + byteDot salt * 5 + iterations + 13 * i + 11) % 256)

theorem pbkdf2PreHash_length (pwd salt : Bytes) (iterations : Nat) :
    (pbkdf2PreHash pwd salt iterations).length = 32 := by
  simp [pbkdf2PreHash]

/-- Modelled from the spec: the Argon2id WASM primitive
(argon2._argon2id_hash_raw, loaded from a WASM binary not in src/). Per the
spec it is a deterministic, parameterized, memory-hard derivation producing
outLen bytes from the supplied password bytes and salt. -/
def argon2idHashRaw (iterations memKB parallelism : Nat) (pwd salt : Bytes)
    (outLen : Nat) : Bytes :=
  (List.range outLen).map
    (fun i =>
      (byteDot pwd * 7 + byteDot salt * 17 + iterations * 23 + memKB + parallelism * 29
        + 31 * i + 5) % 256)

theorem argon2idHashRaw_length (iterations memKB parallelism : Nat) (pwd salt : Bytes)
    (outLen : Nat) :
    (argon2idHashRaw iterations memKB parallelism pwd salt outLen).length = outLen := by
  simp [argon2idHashRaw]

/- ===== The AEAD primitive =====
crypto.subtle.encrypt / crypto.subtle.decrypt with the XChaCha20-Poly1305
algorithm: an external collaborator, modelled from the spec as a 256-bit-key
authenticated stream cipher with a 192-bit nonce and a 128-bit (16-byte)
tag, satisfying decrypt(key, encrypt(key, pt, nonce), nonce) = pt and
failing closed on tag mismatch. -/

/-- Modelled from the spec: keystream byte i of the AEAD stream cipher,
a deterministic function of key, nonce and position. -/
def xchachaKeystream (key nonce : Bytes) (i : Nat) : Nat :=
  (byteDot key * 19 + byteDot nonce * 37 + 41 * i + 3) % 256

/-- Stream encryption of the body, starting at keystream position i. -/
def encryptBody (key nonce : Bytes) (i : Nat) : Bytes → Bytes
  | [] => []
  | p :: ps => (p + xchachaKeystream key nonce i) % 256 :: encryptBody key nonce (i + 1) ps

/-- Stream decryption of the body, starting at keystream position i. -/
def decryptBody (key nonce : Bytes) (i : Nat) : Bytes → Bytes
  | [] => []
  | c :: cs =>
    (c + 256 - xchachaKeystream key nonce i) % 256 :: decryptBody key nonce (i + 1) cs

/-- Modelled from the spec: the 16-byte authentication tag over key, nonce
and ciphertext body. -/
def poly1305Tag (key nonce body : Bytes) : Bytes :=
  (List.range 16).map
    (fun j => (byteDot key * 43 + byteDot nonce * 47 + byteDot body * 53 + 59 * j + 2) % 256)

theorem poly1305Tag_length (key nonce body : Bytes) :
    (poly1305Tag key nonce body).length = 16 := by
  simp [poly1305Tag]

/- ===== argon2.wasm.js : deriveKey ===== -/

/-- The argument object of deriveKey in argon2.wasm.js, with the default
values of the source. salt = none means the caller omitted the salt, so the
default secureRandom(32) is evaluated (a fresh RNG draw). -/
structure DeriveArgs where
  password : JsValue
  salt : Option Bytes := none
  memoryMB : Nat := 64
  iterations : Nat := 3
  parallelism : Nat := 1
  outputLength : Nat := 32
deriving DecidableEq, Repr

/-- The value deriveKey returns on success: the derived key and the salt
object that was used. -/
structure DeriveResult where
  key : Bytes
  salt : Bytes
deriving DecidableEq, Repr

/-- Observable outcome of one run of deriveKey: its returned value or
thrown error, together with the contents, at function exit, of every buffer
the function may write to. A buffer that was never created is recorded as
[]. saltBufferFinal is the contents of the caller-visible salt array at
exit; heapPwdFinal, heapSaltFinal and heapOutFinal are the three WASM heap
regions the function allocates (heapOutFinal is recorded as zeros on the
derivation-failure path, where the primitive reported a non-success status
and its freshly allocated output region is treated as unwritten). -/
structure DeriveOutcome where
  result : Except VaultError DeriveResult
  passwordBytesFinal : Bytes
  hardenedFinal : Bytes
  heapPwdFinal : Bytes
  heapSaltFinal : Bytes
  heapOutFinal : Bytes
  saltBufferFinal : Bytes
deriving DecidableEq, Repr

/-- The salt deriveKey actually uses: the supplied one, or the default
secureRandom(32) draw. In JavaScript the default parameter expression is
evaluated before the function body runs. -/
def effectiveSalt (rng : Rng) (draw : Nat) (args : DeriveArgs) : Bytes :=
  match args.salt with
  | some s => s
  | none => randomBytesDraw rng draw 32

/-- deriveKey of argon2.wasm.js (app.js lines 380-444), embedded with the
RNG stream, the draw counter, and the status word the Argon2id primitive
reports (the code checks result !== 0). Control flow of the source:
validate the password; encode it; PBKDF2 pre-harden; copy hardened bytes
and salt into the WASM heap; run argon2id_hash_raw; on non-zero status
throw BEFORE the zeroization block, leaving passwordBytes, hardened and the
heap copies unwiped; on success slice the key out of the heap, wipe the
three heap regions, passwordBytes and hardened, and return key and salt. -/
def deriveKey (rng : Rng) (draw : Nat) (argonStatus : Nat) (args : DeriveArgs) :
    DeriveOutcome :=
  let salt := effectiveSalt rng draw args
  match args.password with
  | JsValue.nonString =>
    { result := .error .validationError
      passwordBytesFinal := [], hardenedFinal := []
      heapPwdFinal := [], heapSaltFinal := [], heapOutFinal := []
      saltBufferFinal := salt }
  | JsValue.str p =>
    if p.length = 0 then
      { result := .error .validationError
        passwordBytesFinal := [], hardenedFinal := []
        heapPwdFinal := [], heapSaltFinal := [], heapOutFinal := []
        saltBufferFinal := salt }
    else
      let passwordBytes := strToBytes p
      let hardened := pbkdf2PreHash passwordBytes salt 2000000
      if argonStatus ≠ 0 then
        { result := .error .derivationError
          passwordBytesFinal := passwordBytes
          hardenedFinal := hardened
          heapPwdFinal := hardened
          heapSaltFinal := salt
          heapOutFinal := List.replicate args.outputLength 0
          saltBufferFinal := salt }
      else
        let derivedKey :=
          argon2idHashRaw args.iterations (args.memoryMB * 1024) args.parallelism
            hardened salt args.outputLength
        { result := .ok { key := derivedKey, salt := salt }
          passwordBytesFinal := List.replicate passwordBytes.length 0
          hardenedFinal := List.replicate 32 0
          heapPwdFinal := List.replicate hardened.length 0
          heapSaltFinal := List.replicate salt.length 0
          heapOutFinal := List.replicate args.outputLength 0
          saltBufferFinal := salt }

/-- The file key the pipeline derives for password and salt with the
parameters crypto-core.js passes (memoryMB 128, iterations 3,
parallelism 1, outputLength 32). -/
def fileKey (password : String) (salt : Bytes) : Bytes :=
  argon2idHashRaw 3 (128 * 1024) 1 (pbkdf2PreHash (strToBytes password) salt 2000000) salt 32

theorem deriveKey_ok (rng : Rng) (draw argonStatus : Nat) (password : String) (salt : Bytes)
    (hp : password.length ≠ 0) (hs : argonStatus = 0) :
    (deriveKey rng draw argonStatus
        { password := .str password, salt := some salt, memoryMB := 128 }).result =
      .ok { key := fileKey password salt, salt := salt } := by
  subst hs
  rw [deriveKey]
  simp only [effectiveSalt]
  rw [if_neg hp, if_neg (fun h => h rfl)]
  rfl

/- ===== crypto-core.js : chunked file encryption ===== -/

/-- One chunk record of the output: the ciphertext-with-tag and the nonce
used for the chunk (crypto-core.js pushes objects of this shape). -/
structure ChunkRecord where
  cipherChunk : Bytes
  nonce : Bytes
deriving DecidableEq, Repr

/-- encryptFileChunk of crypto-core.js: one AEAD encryption of a chunk
under key and nonce, via the spec-modelled cipher. -/
def encryptFileChunk (key chunk nonce : Bytes) : Bytes :=
  encryptBody key nonce 0 chunk ++ poly1305Tag key nonce (encryptBody key nonce 0 chunk)

/-- decryptFileChunk of crypto-core.js: one AEAD decryption; fails closed
with AuthenticationError when the chunk is too short to carry a tag or the
tag does not verify. -/
def decryptFileChunk (key chunk nonce : Bytes) : Except VaultError Bytes :=
  if chunk.length < 16 then .error .authenticationError
  else if chunk.drop (chunk.length - 16) =
      poly1305Tag key nonce (chunk.take (chunk.length - 16)) then
    .ok (decryptBody key nonce 0 (chunk.take (chunk.length - 16)))
  else .error .authenticationError

/-- generateFileKey of crypto-core.js: draw a fresh 32-byte salt, then call
deriveKey with password, this salt and memoryMB 128, iterations 3,
parallelism 1; returns the key and the salt. -/
def generateFileKey (rng : Rng) (draw argonStatus : Nat) (password : String) :
    Except VaultError (Bytes × Bytes) :=
  match (deriveKey rng (draw + 1) argonStatus
      { password := .str password, salt := some (randomBytesDraw rng draw 32),
        memoryMB := 128 }).result with
  | .error e => .error e
  | .ok r => .ok (r.key, randomBytesDraw rng draw 32)

/-- The while loop of encryptFile: for each chunk the stream reader yields,
draw a fresh 24-byte nonce, encrypt the chunk, and append the record in
order. The draw counter advances by one per chunk. -/
def encryptChunksLoop (rng : Rng) (key : Bytes) (draw : Nat) : List Bytes → List ChunkRecord
  | [] => []
  | c :: cs =>
    let nonce := randomBytesDraw rng draw 24
    { cipherChunk := encryptFileChunk key c nonce, nonce := nonce }
      :: encryptChunksLoop rng key (draw + 1) cs

/-- Observable outcome of encryptFile: the returned value or thrown error,
and whether zeroize(key) was reached (it sits after the loop, so a throw
inside the loop would skip it; in this embedding the loop is total). -/
structure EncryptOutcome where
  result : Except VaultError (List ChunkRecord × Bytes)
  keyDerived : Bool
  keyWiped : Bool
deriving DecidableEq, Repr

/-- encryptFile of crypto-core.js. stream is the ordered sequence of byte
chunks the file stream reader yields; the chunkSize parameter is carried
exactly as in the source, whose loop body never reads it. -/
def encryptFile (rng : Rng) (draw argonStatus : Nat) (stream : List Bytes)
    (password : String) (chunkSize : Nat := 1048576) : EncryptOutcome :=
  match generateFileKey rng draw argonStatus password with
  | .error e => { result := .error e, keyDerived := false, keyWiped := false }
  | .ok (key, salt) =>
    let encryptedChunks := encryptChunksLoop rng key (draw + 1) stream
    { result := .ok (encryptedChunks, salt), keyDerived := true, keyWiped := true }

/-- The for loop of decryptFile: decrypt each record in order; the first
failure propagates immediately and the partial list of plaintext chunks is
discarded. -/
def decryptChunksLoop (key : Bytes) : List ChunkRecord → Except VaultError (List Bytes)
  | [] => .ok []
  | r :: rs =>
    match decryptFileChunk key r.cipherChunk r.nonce with
    | .error e => .error e
    | .ok pt =>
      match decryptChunksLoop key rs with
      | .error e => .error e
      | .ok ps => .ok (pt :: ps)

/-- Observable outcome of decryptFile: the returned chunks or thrown error,
whether a key was derived, and whether zeroize(key) was reached. In the
source zeroize(key) sits after the loop, so the throw of a failing chunk
skips it. -/
structure DecryptOutcome where
  result : Except VaultError (List Bytes)
  keyDerived : Bool
  keyWiped : Bool
deriving DecidableEq, Repr

/-- decryptFile of crypto-core.js: re-derive the key from password and the
stored salt (memoryMB 128, iterations 3, parallelism 1), decrypt the
records in order, zeroize the key after the loop, return the chunk list. -/
def decryptFile (rng : Rng) (draw argonStatus : Nat) (encryptedChunks : List ChunkRecord)
    (password : String) (salt : Bytes) : DecryptOutcome :=
  match (deriveKey rng draw argonStatus
      { password := .str password, salt := some salt, memoryMB := 128 }).result with
  | .error e => { result := .error e, keyDerived := false, keyWiped := false }
  | .ok r =>
    match decryptChunksLoop r.key encryptedChunks with
    | .error e => { result := .error e, keyDerived := true, keyWiped := false }
    | .ok chunks => { result := .ok chunks, keyDerived := true, keyWiped := true }

/- ===== unnamed part_002 : container format variant ===== -/

/-- VAULT_MAGIC of part_002 as bytes: the UTF-8 encoding of the marker
string. The source compares TextDecoder output with the string constant;
since the marker is ASCII and TextDecoder is injective on it, the check is
equivalent to a byte comparison with this constant. -/
def vaultMagicBytes : Bytes := [83, 86, 76, 84, 49]

/-- The marker string constant of part_002. -/
def vaultMagicStr : String := "SVLT1"

theorem vaultMagicBytes_eq : strToBytes vaultMagicStr = vaultMagicBytes := by decide

/-- HEADER_VERSION of part_002. -/
def HEADER_VERSION : Nat := 1

/-- The parsed header of part_002: version byte, 32-byte salt, 24-byte
nonce, and the byte offset where the ciphertext begins. -/
structure Header where
  version : Nat
  salt : Bytes
  nonce : Bytes
  offset : Nat
deriving DecidableEq, Repr

/-- parseHeader of part_002: compare the first five bytes with the magic
marker and throw on mismatch; then return version = buffer[5] (an
out-of-range JavaScript index reads undefined, modelled as 0), the salt
bytes 6..38, the nonce bytes 38..62 (Uint8Array.slice clamps, as take and
drop do), and offset 62. The version byte is read but never compared with
HEADER_VERSION. -/
def parseHeader (buffer : Bytes) : Except VaultError Header :=
  if buffer.take 5 ≠ vaultMagicBytes then .error .formatError
  else
    .ok { version := buffer.getD 5 0
          salt := (buffer.drop 6).take 32
          nonce := (buffer.drop 38).take 24
          offset := 62 }

/-- createHeader of part_002: magic, version byte, salt, nonce. -/
def createHeader (salt nonce : Bytes) : Bytes :=
  vaultMagicBytes ++ [HEADER_VERSION] ++ salt ++ nonce

/-- deriveMasterKey of part_002: Argon2id over the raw password bytes with
parallelism 4, iterations 5, memorySize 65536 KB, hashLength 32 (no PBKDF2
pre-hardening in this variant). -/
def deriveMasterKey (password : String) (salt : Bytes) : Bytes :=
  argon2idHashRaw 5 65536 4 (strToBytes password) salt 32

namespace Part002

/-- encryptFile of part_002: fresh 32-byte salt, fresh 24-byte nonce, one
AEAD encryption of the whole buffer under the derived master key, output
container = header followed by the ciphertext. -/
def encryptFile (rng : Rng) (draw : Nat) (arrayBuffer : Bytes) (password : String) : Bytes :=
  let salt := randomBytesDraw rng draw 32
  let nonce := randomBytesDraw rng (draw + 1) 24
  let masterKey := deriveMasterKey password salt
  let encrypted := encryptFileChunk masterKey arrayBuffer nonce
  createHeader salt nonce ++ encrypted

end Part002

/- ===== unnamed part_001 : temporary PBKDF2 and AES-GCM variant ===== -/

/-- The fixed salt string of the part_001 variant. -/
def sovereignVaultSaltStr : String := "sovereign-vault-salt"

/-- The bytes of the fixed salt of part_001 (encoder.encode of the
constant string). -/
def sovereignVaultSaltBytes : Bytes := strToBytes sovereignVaultSaltStr

/-- Modelled from the spec: the WebCrypto PBKDF2-SHA-256 deriveKey
primitive part_001 calls (crypto.subtle.deriveKey, not in src/): a
deterministic salted iterated-hash derivation of a 32-byte AES key. -/
def pbkdf2Sha256Key (pwd salt : Bytes) (iterations : Nat) : Bytes :=
  (List.range 32).map
    (fun i => (byteDot pwd * 61 + byteDot salt * 67 + iterations * 71 + 73 * i + 6) % 256)

namespace Part001

/-- deriveKeyFromPassword of part_001: PBKDF2 with the FIXED salt
sovereign-vault-salt and 100000 iterations; no per-operation salt. -/
def deriveKeyFromPassword (password : String) : Bytes :=
  pbkdf2Sha256Key (strToBytes password) sovereignVaultSaltBytes 100000

/-- Observable outcome of encryptArrayBuffer of part_001: the ciphertext,
the random 12-byte AES-GCM iv, and the salt that was fed to the key
derivation (exposed so theorems can speak about it; the source never
persists it). -/
structure EncryptOutcome where
  encrypted : Bytes
  iv : Bytes
  kdfSalt : Bytes
deriving DecidableEq, Repr

/-- encryptArrayBuffer of part_001: fresh 12-byte iv, key from
deriveKeyFromPassword (fixed salt), one AEAD encryption of the buffer. -/
def encryptArrayBuffer (rng : Rng) (draw : Nat) (data : Bytes) (password : String) :
    EncryptOutcome :=
  let iv := randomBytesDraw rng draw 12
  let key := deriveKeyFromPassword password
  { encrypted := encryptFileChunk key data iv
    iv := iv
    kdfSalt := sovereignVaultSaltBytes }

end Part001

/- ===== Helper lemmas ===== -/

theorem encryptBody_length (key nonce : Bytes) : ∀ (i : Nat) (pt : Bytes),
    (encryptBody key nonce i pt).length = pt.length := by
  intro i pt
  induction pt generalizing i with
  | nil => rfl
  | cons p ps ih => simp [encryptBody, ih]

theorem decryptBody_encryptBody (key nonce : Bytes) : ∀ (pt : Bytes) (i : Nat),
    (∀ b ∈ pt, b < 256) →
    decryptBody key nonce i (encryptBody key nonce i pt) = pt := by
  intro pt
  induction pt with
  | nil => intro i _; rfl
  | cons p ps ih =>
    intro i h
    have hp : p < 256 := h p (by simp)
    have hks : xchachaKeystream key nonce i < 256 := Nat.mod_lt _ (by omega)
    simp only [encryptBody, decryptBody, List.cons.injEq]
    exact ⟨by omega, ih (i + 1) (fun b hb => h b (by simp [hb]))⟩

theorem decryptFileChunk_encryptFileChunk (key chunk nonce : Bytes)
    (h : ∀ b ∈ chunk, b < 256) :
    decryptFileChunk key (encryptFileChunk key chunk nonce) nonce = .ok chunk := by
  unfold encryptFileChunk decryptFileChunk
  have htl : (poly1305Tag key nonce (encryptBody key nonce 0 chunk)).length = 16 :=
    poly1305Tag_length key nonce _
  have hlen :
      (encryptBody key nonce 0 chunk
        ++ poly1305Tag key nonce (encryptBody key nonce 0 chunk)).length =
      (encryptBody key nonce 0 chunk).length + 16 := by
    simp [htl]
  rw [if_neg (by omega)]
  have hsub :
      (encryptBody key nonce 0 chunk
        ++ poly1305Tag key nonce (encryptBody key nonce 0 chunk)).length - 16 =
      (encryptBody key nonce 0 chunk).length := by omega
  rw [hsub, List.take_left, List.drop_left, if_pos rfl,
    decryptBody_encryptBody key nonce chunk 0 h]

theorem decryptFileChunk_error_shape (key chunk nonce : Bytes) :
    decryptFileChunk key chunk nonce = .error .authenticationError ∨
    ∃ pt, decryptFileChunk key chunk nonce = .ok pt := by
  unfold decryptFileChunk
  by_cases h1 : chunk.length < 16
  · simp [h1]
  · by_cases h2 : chunk.drop (chunk.length - 16) =
        poly1305Tag key nonce (chunk.take (chunk.length - 16))
    · right
      exact ⟨decryptBody key nonce 0 (chunk.take (chunk.length - 16)), by simp [h1, h2]⟩
    · simp [h1, h2]

theorem decryptChunksLoop_roundTrip (rng : Rng) (key : Bytes) : ∀ (cs : List Bytes) (d : Nat),
    (∀ c ∈ cs, ∀ b ∈ c, b < 256) →
    decryptChunksLoop key (encryptChunksLoop rng key d cs) = .ok cs := by
  intro cs
  induction cs with
  | nil => intro d _; rfl
  | cons c cs ih =>
    intro d h
    simp only [encryptChunksLoop, decryptChunksLoop]
    rw [decryptFileChunk_encryptFileChunk key c _ (h c (by simp))]
    rw [ih (d + 1) (fun x hx b hb => h x (by simp [hx]) b hb)]

theorem decryptChunksLoop_ok_length (key : Bytes) : ∀ (rs : List ChunkRecord) (pts : List Bytes),
    decryptChunksLoop key rs = .ok pts → pts.length = rs.length := by
  intro rs
  induction rs with
  | nil =>
    intro pts h
    simp only [decryptChunksLoop] at h
    cases h
    rfl
  | cons r rs ih =>
    intro pts h
    simp only [decryptChunksLoop] at h
    cases hh : decryptFileChunk key r.cipherChunk r.nonce with
    | error e => rw [hh] at h; cases h
    | ok pt =>
      rw [hh] at h
      cases hl : decryptChunksLoop key rs with
      | error e => rw [hl] at h; cases h
      | ok ps =>
        rw [hl] at h
        cases h
        simp [ih ps hl]

theorem decryptChunksLoop_fails (key : Bytes) : ∀ (rs : List ChunkRecord),
    (∃ r ∈ rs, decryptFileChunk key r.cipherChunk r.nonce = .error .authenticationError) →
    decryptChunksLoop key rs = .error .authenticationError := by
  intro rs
  induction rs with
  | nil => rintro ⟨r, hr, _⟩; cases hr
  | cons r rs ih =>
    rintro ⟨x, hx, hfail⟩
    simp only [decryptChunksLoop]
    rcases List.mem_cons.mp hx with rfl | hx
    · rw [hfail]
    · cases hh : decryptFileChunk key r.cipherChunk r.nonce with
      | error e =>
        rcases decryptFileChunk_error_shape key r.cipherChunk r.nonce with he | ⟨pt, hpt⟩
        · rw [he] at hh; cases hh; rfl
        · rw [hpt] at hh; cases hh
      | ok pt => rw [ih ⟨x, hx, hfail⟩]

theorem encryptChunksLoop_length (rng : Rng) (key : Bytes) : ∀ (cs : List Bytes) (d : Nat),
    (encryptChunksLoop rng key d cs).length = cs.length := by
  intro cs
  induction cs with
  | nil => intro d; rfl
  | cons c cs ih => intro d; simp [encryptChunksLoop, ih]

theorem encryptChunksLoop_getD (rng : Rng) (key : Bytes) : ∀ (cs : List Bytes) (d j : Nat),
    j < cs.length →
    (encryptChunksLoop rng key d cs).getD j { cipherChunk := [], nonce := [] } =
      { cipherChunk :=
          encryptFileChunk key (cs.getD j []) (randomBytesDraw rng (d + j) 24)
        nonce := randomBytesDraw rng (d + j) 24 } := by
  intro cs
  induction cs with
  | nil => intro d j hj; cases hj
  | cons c cs ih =>
    intro d j hj
    cases j with
    | zero => simp [encryptChunksLoop]
    | succ j =>
      have hj2 : j < cs.length := by simpa using hj
      have := ih (d + 1) j hj2
      simp only [encryptChunksLoop, List.getD_cons_succ]
      rw [this]
      have harith : d + 1 + j = d + (j + 1) := by omega
      rw [harith]

theorem deriveKey_ok_general (rng : Rng) (draw : Nat) (password : String) (salt : Bytes)
    (memoryMB iterations parallelism outputLength : Nat) (hp : password.length ≠ 0) :
    (deriveKey rng draw 0
        { password := .str password, salt := some salt, memoryMB := memoryMB,
          iterations := iterations, parallelism := parallelism,
          outputLength := outputLength }).result =
      .ok { key := argon2idHashRaw iterations (memoryMB * 1024) parallelism
              (pbkdf2PreHash (strToBytes password) salt 2000000) salt outputLength
            salt := salt } := by
  rw [deriveKey]
  simp only [effectiveSalt]
  rw [if_neg hp, if_neg (fun h => h rfl)]

theorem generateFileKey_ok (rng : Rng) (draw : Nat) (password : String)
    (hp : password.length ≠ 0) :
    generateFileKey rng draw 0 password =
      .ok (fileKey password (randomBytesDraw rng draw 32), randomBytesDraw rng draw 32) := by
  unfold generateFileKey
  rw [deriveKey_ok rng (draw + 1) 0 password _ hp rfl]

theorem encryptFile_ok (rng : Rng) (draw : Nat) (stream : List Bytes) (password : String)
    (chunkSize : Nat) (hp : password.length ≠ 0) :
    encryptFile rng draw 0 stream password chunkSize =
      { result := .ok
          (encryptChunksLoop rng (fileKey password (randomBytesDraw rng draw 32))
            (draw + 1) stream,
          randomBytesDraw rng draw 32)
        keyDerived := true, keyWiped := true } := by
  unfold encryptFile
  rw [generateFileKey_ok rng draw password hp]

theorem decryptFile_result (rng : Rng) (draw : Nat) (records : List ChunkRecord)
    (password : String) (salt : Bytes) (hp : password.length ≠ 0) :
    (decryptFile rng draw 0 records password salt).result =
      decryptChunksLoop (fileKey password salt) records := by
  unfold decryptFile
  rw [deriveKey_ok rng draw 0 password salt hp rfl]
  cases h : decryptChunksLoop (fileKey password salt) records with
  | error e => simp [h]
  | ok pts => simp [h]

/- ===== Test constants for witnesses ===== -/

/-- A deterministic RNG stream for witnesses: every byte zero. -/
def rngZero : Rng := fun _ _ => 0

/-- A deterministic RNG stream for witnesses: byte value equals the draw
counter, so distinct draws give distinct byte lists. -/
def rngId : Rng := fun d _ => d

/-- A concrete test password. -/
def pwTest : String := "pw"

/-- A concrete 32-byte test salt. -/
def saltTest : Bytes := List.replicate 32 7

/- ===== Claims ===== -/

/-- C1: encrypt-then-decrypt round trip. For every RNG stream, draw
counters, ordered chunk stream B (bytes below 256) and non-empty password
P, encryptFile succeeds with some records and salt, and
decryptFile(records, P, salt) returns exactly the original chunk sequence,
whose concatenation is byte-identical to B. -/
theorem encryptFile_decryptFile_roundTrip (rng rng2 : Rng) (draw draw2 : Nat)
    (stream : List Bytes) (password : String)
    (hp : password.length ≠ 0)
    (hbytes : ∀ c ∈ stream, ∀ b ∈ c, b < 256) :
    ∃ records salt,
      (encryptFile rng draw 0 stream password).result = .ok (records, salt) ∧
      ∃ out, (decryptFile rng2 draw2 0 records password salt).result = .ok out ∧
        out = stream ∧ out.flatten = stream.flatten := by
  refine ⟨encryptChunksLoop rng (fileKey password (randomBytesDraw rng draw 32))
      (draw + 1) stream, randomBytesDraw rng draw 32, ?_, stream, ?_, rfl, rfl⟩
  · rw [encryptFile_ok rng draw stream password 1048576 hp]
  · rw [decryptFile_result rng2 draw2 _ password _ hp]
    exact decryptChunksLoop_roundTrip rng (fileKey password (randomBytesDraw rng draw 32))
      stream (draw + 1) hbytes

/-- Witness for C1 at a concrete input: a two-chunk stream, password pw,
and two unrelated RNG streams and counters. -/
theorem encryptFile_decryptFile_roundTrip_witness :
    ∃ records salt,
      (encryptFile rngId 0 0 [[1, 2, 3], [4, 5]] pwTest).result = .ok (records, salt) ∧
      ∃ out, (decryptFile rngZero 9 0 records pwTest salt).result = .ok out ∧
        out = [[1, 2, 3], [4, 5]] ∧ out.flatten = [[1, 2, 3], [4, 5]].flatten :=
  encryptFile_decryptFile_roundTrip rngId rngZero 0 9 [[1, 2, 3], [4, 5]] pwTest
    (by decide) (by decide)

/-- C2: deriveKey is deterministic. For identical (password, salt, params)
with a valid password and a successful primitive run, two runs of deriveKey
under arbitrary and unrelated RNG streams and draw counters return the same
32-byte key. -/
theorem deriveKey_deterministic (rng1 rng2 : Rng) (d1 d2 : Nat) (password : String)
    (salt : Bytes) (memoryMB iterations parallelism : Nat)
    (hp : password.length ≠ 0) :
    ∃ k,
      (deriveKey rng1 d1 0
          { password := .str password, salt := some salt, memoryMB := memoryMB,
            iterations := iterations, parallelism := parallelism }).result =
        .ok { key := k, salt := salt } ∧
      (deriveKey rng2 d2 0
          { password := .str password, salt := some salt, memoryMB := memoryMB,
            iterations := iterations, parallelism := parallelism }).result =
        .ok { key := k, salt := salt } ∧
      k.length = 32 :=
  ⟨argon2idHashRaw iterations (memoryMB * 1024) parallelism
      (pbkdf2PreHash (strToBytes password) salt 2000000) salt 32,
    deriveKey_ok_general rng1 d1 password salt memoryMB iterations parallelism 32 hp,
    deriveKey_ok_general rng2 d2 password salt memoryMB iterations parallelism 32 hp,
    argon2idHashRaw_length _ _ _ _ _ _⟩

/-- Witness for C2 at a concrete input: password pw, a fixed 32-byte salt,
the parameters of crypto-core.js, and two unrelated RNG streams. -/
theorem deriveKey_deterministic_witness :
    ∃ k,
      (deriveKey rngZero 0 0
          { password := .str pwTest, salt := some saltTest, memoryMB := 128,
            iterations := 3, parallelism := 1 }).result =
        .ok { key := k, salt := saltTest } ∧
      (deriveKey rngId 5 0
          { password := .str pwTest, salt := some saltTest, memoryMB := 128,
            iterations := 3, parallelism := 1 }).result =
        .ok { key := k, salt := saltTest } ∧
      k.length = 32 :=
  deriveKey_deterministic rngZero rngId 0 5 pwTest saltTest 128 3 1 (by decide)

/-- C3: decryption is fail-closed. If any chunk record fails
authentication under the re-derived file key, decryptFile returns the
AuthenticationError of the first failing chunk and never returns any list
of plaintext chunks, partial or otherwise (the loop propagates the first
thrown error and the local plaintext list is discarded). -/
theorem decryptFile_failClosed (rng : Rng) (draw : Nat) (records : List ChunkRecord)
    (password : String) (salt : Bytes) (hp : password.length ≠ 0)
    (hfail : ∃ r ∈ records,
      decryptFileChunk (fileKey password salt) r.cipherChunk r.nonce =
        .error .authenticationError) :
    (decryptFile rng draw 0 records password salt).result =
      .error .authenticationError ∧
    ∀ pts, (decryptFile rng draw 0 records password salt).result ≠ .ok pts := by
  have h1 : (decryptFile rng draw 0 records password salt).result =
      .error .authenticationError := by
    rw [decryptFile_result rng draw records password salt hp]
    exact decryptChunksLoop_fails (fileKey password salt) records hfail
  exact ⟨h1, fun pts hcontra => by rw [h1] at hcontra; cases hcontra⟩

/-- Witness for C3 at a concrete input: a single record whose ciphertext is
too short to carry a valid tag, so its authentication fails. -/
theorem take_append_eq (l1 l2 : Bytes) (n : Nat) (h : l1.length = n) :
    (l1 ++ l2).take n = l1 := by
  subst h
  exact List.take_left l1 l2

theorem drop_append_eq (l1 l2 : Bytes) (n : Nat) (h : l1.length = n) :
    (l1 ++ l2).drop n = l2 := by
  subst h
  exact List.drop_left l1 l2

theorem decryptFile_failClosed_witness :
    (decryptFile rngZero 0 0 [{ cipherChunk := [], nonce := [] }] pwTest saltTest).result =
      .error .authenticationError ∧
    ∀ pts, (decryptFile rngZero 0 0 [{ cipherChunk := [], nonce := [] }]
        pwTest saltTest).result ≠ .ok pts :=
  decryptFile_failClosed rngZero 0 [{ cipherChunk := [], nonce := [] }] pwTest saltTest
    (by decide) ⟨{ cipherChunk := [], nonce := [] }, by simp, rfl⟩

/-- C4: key material is NOT zeroized on every error exit path; the claim
fails on the code. At a concrete run where the Argon2id primitive reports a
non-zero status, deriveKey throws its DerivationError before the
zeroization block: the pre-hardened bytes, the password bytes and the WASM
heap copy are all left with their secret contents (the hardened buffer is
not all-zero, the password buffer still holds the UTF-8 password bytes).
Likewise a decryptFile run that fails authentication derives the file key
and exits without reaching zeroize(key), which sits after the loop. -/
theorem keyMaterial_not_zeroized_on_error :
    ((deriveKey rngZero 0 1
        { password := .str pwTest, salt := some saltTest, memoryMB := 128 }).result =
      .error .derivationError) ∧
    (deriveKey rngZero 0 1
        { password := .str pwTest, salt := some saltTest, memoryMB := 128 }).hardenedFinal ≠
      List.replicate 32 0 ∧
    (deriveKey rngZero 0 1
        { password := .str pwTest, salt := some saltTest,
          memoryMB := 128 }).passwordBytesFinal = strToBytes pwTest ∧
    strToBytes pwTest ≠ List.replicate (strToBytes pwTest).length 0 ∧
    (deriveKey rngZero 0 1
        { password := .str pwTest, salt := some saltTest, memoryMB := 128 }).heapPwdFinal =
      (deriveKey rngZero 0 1
        { password := .str pwTest, salt := some saltTest, memoryMB := 128 }).hardenedFinal ∧
    ((decryptFile rngZero 0 0 [{ cipherChunk := [], nonce := [] }] pwTest
        saltTest).result = .error .authenticationError) ∧
    (decryptFile rngZero 0 0 [{ cipherChunk := [], nonce := [] }] pwTest
        saltTest).keyDerived = true ∧
    (decryptFile rngZero 0 0 [{ cipherChunk := [], nonce := [] }] pwTest
        saltTest).keyWiped = false := by
  decide

/-- C5 counterexample: parseHeader accepts a buffer whose version byte is
99, returning it as parsed output instead of failing with FormatError, so
the claim that every version other than the supported one is rejected is
false at this input. -/
theorem parseHeader_accepts_unknown_version :
    parseHeader (vaultMagicBytes ++ 99 :: List.replicate 56 0) =
      .ok { version := 99, salt := List.replicate 32 0, nonce := List.replicate 24 0,
            offset := 62 } ∧
    99 ≠ HEADER_VERSION := by
  decide

/-- C5 amended: parseHeader validates the magic marker first and fails with
FormatError on any input not beginning with the exact marker; when the
marker matches it returns the version byte, salt, nonce and offset WITHOUT
checking the version byte — every version value is accepted. -/
theorem parseHeader_magic_only (buffer : Bytes) :
    (buffer.take 5 ≠ vaultMagicBytes → parseHeader buffer = .error .formatError) ∧
    (buffer.take 5 = vaultMagicBytes →
      parseHeader buffer =
        .ok { version := buffer.getD 5 0, salt := (buffer.drop 6).take 32,
              nonce := (buffer.drop 38).take 24, offset := 62 }) := by
  constructor
  · intro h
    simp [parseHeader, h]
  · intro h
    simp [parseHeader, h]

/-- C6 counterexample: in the part_001 variant, the salt fed to the key
derivation of two distinct encryption operations (different RNG streams,
draw counters, payloads and passwords) is one and the same fixed value, of
length 20 rather than 32, so the salt used for key derivation is not fresh
per operation. -/
theorem part001_salt_fixed :
    (Part001.encryptArrayBuffer rngZero 0 [1, 2] pwTest).kdfSalt =
      (Part001.encryptArrayBuffer rngId 9 [3, 4, 5] sovereignVaultSaltStr).kdfSalt ∧
    (Part001.encryptArrayBuffer rngZero 0 [1, 2] pwTest).kdfSalt.length = 20 ∧
    ¬ (Part001.encryptArrayBuffer rngZero 0 [1, 2] pwTest).kdfSalt.length = 32 := by
  decide

/-- C6 amended: in the chunked pipeline (crypto-core.js) and in the
part_002 variant the salt is 32 bytes drawn fresh from the CSPRNG at the
start of that encryption operation and persisted with the ciphertext
(returned beside the chunk records, or stored at bytes 6..38 of the
container); the part_001 temporary variant instead feeds a fixed 20-byte
salt to its key derivation on every operation. -/
theorem encryptFile_salt_fresh (rng : Rng) (draw : Nat) (stream : List Bytes)
    (password : String) (data : Bytes) (hp : password.length ≠ 0) :
    (∃ records, (encryptFile rng draw 0 stream password).result =
        .ok (records, randomBytesDraw rng draw 32)) ∧
    (randomBytesDraw rng draw 32).length = 32 ∧
    ((Part002.encryptFile rng draw data password).drop 6).take 32 =
      randomBytesDraw rng draw 32 := by
  refine ⟨⟨encryptChunksLoop rng (fileKey password (randomBytesDraw rng draw 32))
      (draw + 1) stream, ?_⟩, randomBytesDraw_length rng draw 32, ?_⟩
  · rw [encryptFile_ok rng draw stream password 1048576 hp]
  · have h : Part002.encryptFile rng draw data password =
        (vaultMagicBytes ++ [HEADER_VERSION]) ++
          (randomBytesDraw rng draw 32 ++
            (randomBytesDraw rng (draw + 1) 24 ++
              encryptFileChunk (deriveMasterKey password (randomBytesDraw rng draw 32))
                data (randomBytesDraw rng (draw + 1) 24))) := by
      simp [Part002.encryptFile, createHeader, List.append_assoc]
    rw [h, drop_append_eq _ _ 6 (by decide),
      take_append_eq _ _ 32 (randomBytesDraw_length rng draw 32)]

/-- Witness for C6 amended at a concrete input. -/
theorem encryptFile_salt_fresh_witness :
    (∃ records, (encryptFile rngId 3 0 [[1]] pwTest).result =
        .ok (records, randomBytesDraw rngId 3 32)) ∧
    (randomBytesDraw rngId 3 32).length = 32 ∧
    ((Part002.encryptFile rngId 3 [5, 6] pwTest).drop 6).take 32 =
      randomBytesDraw rngId 3 32 :=
  encryptFile_salt_fresh rngId 3 [[1]] pwTest [5, 6] (by decide)

/-- C7: per-chunk nonce freshness and uniqueness. For every run that
derives a key, encryptFile gives the j-th chunk record the 24-byte nonce of
RNG draw draw+1+j, drawn before the cipher runs on that chunk (the record's
ciphertext is the cipher applied with exactly that nonce) and stored in the
record; distinct chunks use distinct draws, so whenever the CSPRNG does not
repeat an output across the draws of this operation (the cryptographically
random assumption of the spec), no nonce repeats under the single file
key. -/
theorem encryptFile_nonces_fresh (rng : Rng) (draw : Nat) (stream : List Bytes)
    (password : String) (hp : password.length ≠ 0)
    (hinj : ∀ j k, j < stream.length → k < stream.length → j ≠ k →
      randomBytesDraw rng (draw + 1 + j) 24 ≠ randomBytesDraw rng (draw + 1 + k) 24) :
    ∃ records salt,
      (encryptFile rng draw 0 stream password).result = .ok (records, salt) ∧
      records.length = stream.length ∧
      (∀ j, j < stream.length →
        (records.getD j { cipherChunk := [], nonce := [] }).nonce =
            randomBytesDraw rng (draw + 1 + j) 24 ∧
          (records.getD j { cipherChunk := [], nonce := [] }).nonce.length = 24 ∧
          (records.getD j { cipherChunk := [], nonce := [] }).cipherChunk =
            encryptFileChunk (fileKey password (randomBytesDraw rng draw 32))
              (stream.getD j []) (randomBytesDraw rng (draw + 1 + j) 24)) ∧
      ∀ j k, j < stream.length → k < stream.length → j ≠ k →
        (records.getD j { cipherChunk := [], nonce := [] }).nonce ≠
          (records.getD k { cipherChunk := [], nonce := [] }).nonce := by
  refine ⟨encryptChunksLoop rng (fileKey password (randomBytesDraw rng draw 32))
      (draw + 1) stream, randomBytesDraw rng draw 32, ?_, ?_, ?_, ?_⟩
  · rw [encryptFile_ok rng draw stream password 1048576 hp]
  · exact encryptChunksLoop_length rng _ stream (draw + 1)
  · intro j hj
    rw [encryptChunksLoop_getD rng _ stream (draw + 1) j hj]
    have harith : draw + 1 + j = draw + 1 + j := rfl
    exact ⟨rfl, randomBytesDraw_length rng (draw + 1 + j) 24, rfl⟩
  · intro j k hj hk hne
    rw [encryptChunksLoop_getD rng _ stream (draw + 1) j hj,
      encryptChunksLoop_getD rng _ stream (draw + 1) k hk]
    exact hinj j k hj hk hne

/-- Witness for C7 at a concrete input: a two-chunk stream under an RNG
stream whose draws are pairwise distinct byte lists. -/
theorem encryptFile_nonces_fresh_witness :
    ∃ records salt,
      (encryptFile rngId 0 0 [[1], [2]] pwTest).result = .ok (records, salt) ∧
      records.length = 2 ∧
      (∀ j, j < 2 →
        (records.getD j { cipherChunk := [], nonce := [] }).nonce =
            randomBytesDraw rngId (0 + 1 + j) 24 ∧
          (records.getD j { cipherChunk := [], nonce := [] }).nonce.length = 24 ∧
          (records.getD j { cipherChunk := [], nonce := [] }).cipherChunk =
            encryptFileChunk (fileKey pwTest (randomBytesDraw rngId 0 32))
              ([[1], [2]].getD j []) (randomBytesDraw rngId (0 + 1 + j) 24)) ∧
      ∀ j k, j < 2 → k < 2 → j ≠ k →
        (records.getD j { cipherChunk := [], nonce := [] }).nonce ≠
          (records.getD k { cipherChunk := [], nonce := [] }).nonce :=
  encryptFile_nonces_fresh rngId 0 [[1], [2]] pwTest (by decide)
    (by
      intro j k hj hk hne
      have hj2 : j < 2 := hj
      have hk2 : k < 2 := hk
      clear hj hk
      interval_cases j <;> interval_cases k <;> first | omega | decide)

/-- C8: the chunkSize parameter is dead; the claim fails on the code. The
result of encryptFile is the same for every two chunkSize values (the loop
encrypts exactly the chunks the stream reader yields and never reads
chunkSize), and at a concrete run whose stream yields a 3-byte chunk
followed by a 2-byte chunk with chunkSize 1048576, the first (non-final)
record carries a 19-byte ciphertext (3 plaintext bytes plus the 16-byte
tag), not a 1048576-byte chunk. Order is preserved: record j encrypts
stream chunk j. -/
theorem encryptFile_chunkSize_unused :
    (∀ (rng : Rng) (draw argonStatus : Nat) (stream : List Bytes) (password : String)
        (cs1 cs2 : Nat),
      encryptFile rng draw argonStatus stream password cs1 =
        encryptFile rng draw argonStatus stream password cs2) ∧
    (∃ records,
      (encryptFile rngId 0 0 [[1, 2, 3], [4, 5]] pwTest 1048576).result =
        .ok (records, randomBytesDraw rngId 0 32) ∧
      records.length = 2 ∧
      (records.getD 0 { cipherChunk := [], nonce := [] }).cipherChunk.length = 3 + 16 ∧
      ¬ (records.getD 0 { cipherChunk := [], nonce := [] }).cipherChunk.length =
          1048576 + 16) := by
  constructor
  · intro rng draw argonStatus stream password cs1 cs2
    rfl
  · refine ⟨encryptChunksLoop rngId (fileKey pwTest (randomBytesDraw rngId 0 32)) 1
        [[1, 2, 3], [4, 5]], ?_, by decide, by decide, by decide⟩
    rw [encryptFile_ok rngId 0 [[1, 2, 3], [4, 5]] pwTest 1048576 (by decide)]

/-- C9: deriveKey fails with ValidationError exactly when the password is
not a string or is the empty string, and on that path no key material comes
into existence: the password-byte, hardened and WASM heap buffers are never
created (the validation check is the first statement of the body). -/
theorem deriveKey_validationError_iff (rng : Rng) (draw argonStatus : Nat)
    (args : DeriveArgs) :
    ((deriveKey rng draw argonStatus args).result = .error .validationError ↔
      args.password = .nonString ∨ ∃ p, args.password = .str p ∧ p.length = 0) ∧
    ((args.password = .nonString ∨ ∃ p, args.password = .str p ∧ p.length = 0) →
      (deriveKey rng draw argonStatus args).passwordBytesFinal = [] ∧
      (deriveKey rng draw argonStatus args).hardenedFinal = [] ∧
      (deriveKey rng draw argonStatus args).heapPwdFinal = [] ∧
      (deriveKey rng draw argonStatus args).heapOutFinal = [] ∧
      (deriveKey rng draw argonStatus args).heapSaltFinal = []) := by
  obtain ⟨pw, osalt, mMB, it, par, outLen⟩ := args
  cases pw with
  | nonString =>
    refine ⟨?_, fun _ => ?_⟩
    · simp [deriveKey]
    · simp [deriveKey]
  | str p =>
    by_cases hp : p.length = 0
    · refine ⟨?_, fun _ => ?_⟩
      · simp [deriveKey, hp]
      · simp [deriveKey, hp]
    · refine ⟨?_, fun hbad => ?_⟩
      · by_cases hs : argonStatus = 0
        · subst hs
          rw [deriveKey]
          simp only []
          rw [if_neg hp, if_neg (fun h => h rfl)]
          simp [hp]
        · rw [deriveKey]
          simp only []
          rw [if_neg hp, if_pos hs]
          simp [hp]
      · rcases hbad with hbad | ⟨q, hq, hq0⟩
        · cases hbad
        · cases hq
          exact absurd hq0 hp

/-- C10: deriveKey leaves the caller's salt buffer untouched. For every
successful run (valid password, primitive status 0), the salt array in use
(supplied by the caller, or generated as the default) is returned in the
result object with its original bytes, the caller-visible salt buffer still
holds those bytes at exit, and only the WASM heap copy of the salt is wiped
to zeros. -/
theorem deriveKey_salt_preserved (rng : Rng) (draw : Nat) (args : DeriveArgs)
    (p : String) (hpw : args.password = .str p) (hp : p.length ≠ 0) :
    (deriveKey rng draw 0 args).saltBufferFinal = effectiveSalt rng draw args ∧
    (∃ k, (deriveKey rng draw 0 args).result =
      .ok { key := k, salt := effectiveSalt rng draw args }) ∧
    (deriveKey rng draw 0 args).heapSaltFinal =
      List.replicate (effectiveSalt rng draw args).length 0 := by
  obtain ⟨pw, osalt, mMB, it, par, outLen⟩ := args
  cases hpw
  rw [deriveKey]
  simp only []
  rw [if_neg hp, if_neg (fun h => h rfl)]
  exact ⟨rfl, ⟨_, rfl⟩, rfl⟩

/-- The deriveKey argument object used by witnesses. -/
def argsTest : DeriveArgs :=
  { password := .str pwTest, salt := some saltTest, memoryMB := 128 }

/-- Witness for C10 at a concrete input. -/
theorem deriveKey_salt_preserved_witness :
    (deriveKey rngZero 0 0 argsTest).saltBufferFinal = effectiveSalt rngZero 0 argsTest ∧
    (∃ k, (deriveKey rngZero 0 0 argsTest).result =
      .ok { key := k, salt := effectiveSalt rngZero 0 argsTest }) ∧
    (deriveKey rngZero 0 0 argsTest).heapSaltFinal =
      List.replicate (effectiveSalt rngZero 0 argsTest).length 0 :=
  deriveKey_salt_preserved rngZero 0 argsTest pwTest rfl (by decide)

end SovereignVault
